import Mathlib

/-!
Verification of the `animal-age` CLI (src/main.rs) against its
natural-language specification.

The program is embedded shallowly: `f32` arithmetic is modelled by `ℚ`
(all constants in the program are short decimal literals), `usize` by
`Nat` with saturating subtraction (`Nat.sub`), the `as usize` cast of a
non-negative float by `Int.toNat ∘ Int.floor`, and the process's stdout /
stderr / exit code by explicit event lists returned from the modelled
`main`.

Definition-to-source map:
  * `Animal`, `Animal.fromStr`, `Animal.key`, `Animal.description`,
    `Animal.maxLifespan`, `Animal.humanYears` — the `Animal` enum and its
    impl (main.rs lines 65-191).
  * `round1` — the rounding `(x * 10.0).round() / 10.0` at line 278;
    `f32::round` rounds half away from zero.
  * `levenshtein`, `suggest_animal` — `suggest_animal` (lines 357-376);
    the edit distance is the Wagner-Fischer row recurrence computed by
    `strsim::levenshtein`.
  * `totalWidthFn`, `filledFn`, `barString`, `showBarLine` —
    `show_lifespan_bars` (lines 380-415), with the terminal width passed
    as a parameter.
  * `listLine`, `listAnimalsOut` — `list_animals` (lines 235-253).
  * `calcLoop`, `runCalc` — `run_calc` (lines 255-355).
  * `mainInner`, `mainRun` — `main_inner` and `main` (lines 193-233).
-/

namespace AnimalAge

/-- The `Animal` enum (main.rs lines 65-78). -/
inductive Animal where
  | smallDog
  | mediumDog
  | bigDog
  | cat
  | horse
  | pig
  | parakeet
  | snake
  | goldfish
  | rabbit
  | hamster
deriving DecidableEq, Fintype, Repr

/-- `Animal::from_str` (main.rs lines 81-96): lowercases its argument and
matches it against the eleven keys. -/
def Animal.fromStr (s : String) : Option Animal :=
  match s.toLower with
  | "small_dog" => some .smallDog
  | "medium_dog" => some .mediumDog
  | "big_dog" => some .bigDog
  | "cat" => some .cat
  | "horse" => some .horse
  | "pig" => some .pig
  | "parakeet" => some .parakeet
  | "snake" => some .snake
  | "goldfish" => some .goldfish
  | "rabbit" => some .rabbit
  | "hamster" => some .hamster
  | _ => none

/-- `Animal::key` (main.rs lines 98-112). -/
def Animal.key : Animal → String
  | .smallDog => "small_dog"
  | .mediumDog => "medium_dog"
  | .bigDog => "big_dog"
  | .cat => "cat"
  | .horse => "horse"
  | .pig => "pig"
  | .parakeet => "parakeet"
  | .snake => "snake"
  | .goldfish => "goldfish"
  | .rabbit => "rabbit"
  | .hamster => "hamster"

/-- `Animal::description` (main.rs lines 114-128). -/
def Animal.description : Animal → String
  | .smallDog => "Small dog (e.g., terrier)"
  | .mediumDog => "Medium dog (e.g., spaniel)"
  | .bigDog => "Large dog (e.g., retriever)"
  | .cat => "Domestic cat"
  | .horse => "Horse"
  | .pig => "Pig"
  | .parakeet => "Parakeet / budgie"
  | .snake => "Common pet snake"
  | .goldfish => "Goldfish"
  | .rabbit => "Rabbit"
  | .hamster => "Hamster"

/-- `Animal::max_lifespan` (main.rs lines 130-144). -/
def Animal.maxLifespan : Animal → ℚ
  | .smallDog => 16
  | .mediumDog => 14
  | .bigDog => 10
  | .cat => 18
  | .horse => 30
  | .pig => 20
  | .parakeet => 10
  | .snake => 20
  | .goldfish => 15
  | .rabbit => 12
  | .hamster => 3

/-- `Animal::human_years` (main.rs lines 146-191). -/
def Animal.humanYears (a : Animal) (age : ℚ) : ℚ :=
  match a with
  | .smallDog => if age ≤ 2 then age * 12.5 else 25 + (age - 2) * 4.5
  | .mediumDog => if age ≤ 2 then age * 10.5 else 21 + (age - 2) * 5
  | .bigDog => if age ≤ 2 then age * 9 else 18 + (age - 2) * 7
  | .cat => if age ≤ 2 then age * 12.5 else 25 + (age - 2) * 4
  | .horse => 6.5 + age * 4
  | .pig => age * 5
  | .parakeet => age * 5
  | .snake => age * 5.3
  | .goldfish => age * 5
  | .rabbit => if age ≤ 2 then age * 12 else 24 + (age - 2) * 4
  | .hamster => age * 25

/-- `f32::round`: round to the nearest integer, ties away from zero. -/
def roundHalfAway (q : ℚ) : ℤ :=
  if 0 ≤ q then ⌊q + 1 / 2⌋ else -⌊-q + 1 / 2⌋

/-- The rounding to one decimal place applied at main.rs line 278:
`(x * 10.0).round() / 10.0`. -/
def round1 (q : ℚ) : ℚ :=
  (roundHalfAway (q * 10) : ℚ) / 10

/-- The human-equivalent age actually computed and shown by `run_calc`
(main.rs line 278): the conversion followed by rounding to one decimal. -/
def computedHumanAge (a : Animal) (age : ℚ) : ℚ :=
  round1 (a.humanYears age)

/-! Spec-side formulas (written from the specification's words, §4.2),
to be compared with `Animal.humanYears` for the refinement claim C1. -/

/-- The spec's list of two-phase species: dogs, cat, rabbit. -/
def twoPhaseSpecies : List Animal :=
  [.smallDog, .mediumDog, .bigDog, .cat, .rabbit]

/-- Spec §4.2: per-species `rate_young` for the two-phase species. -/
def rateYoung : Animal → ℚ
  | .smallDog => 12.5
  | .mediumDog => 10.5
  | .bigDog => 9
  | .cat => 12.5
  | .rabbit => 12
  | _ => 0

/-- Spec §4.2: per-species `base_at_2` for the two-phase species. -/
def baseAt2 : Animal → ℚ
  | .smallDog => 25
  | .mediumDog => 21
  | .bigDog => 18
  | .cat => 25
  | .rabbit => 24
  | _ => 0

/-- Spec §4.2: per-species `rate_adult` for the two-phase species. -/
def rateAdult : Animal → ℚ
  | .smallDog => 4.5
  | .mediumDog => 5
  | .bigDog => 7
  | .cat => 4
  | .rabbit => 4
  | _ => 0

/-- Spec §4.2: per-species `offset` for the single-linear species. -/
def specOffset : Animal → ℚ
  | .horse => 6.5
  | _ => 0

/-- Spec §4.2: per-species `rate` for the single-linear species. -/
def specRate : Animal → ℚ
  | .horse => 4
  | .pig => 5
  | .parakeet => 5
  | .snake => 5.3
  | .goldfish => 5
  | .hamster => 25
  | _ => 0

/-- The spec's conversion formula, transcribed from §4.2's words:
two-phase linear for dogs, cat and rabbit, single linear otherwise. -/
def spec_human_equivalent (a : Animal) (age : ℚ) : ℚ :=
  if a ∈ twoPhaseSpecies then
    if age ≤ 2 then age * rateYoung a
    else baseAt2 a + (age - 2) * rateAdult a
  else specOffset a + age * specRate a

/-! ### String utilities

`repChar c n` is `"c".repeat(n)`; `padRight s w` is Rust's default (left
justified) string padding `{:w$}`; `padLeft s w` is right-justified padding
`{:>w$}`. Rust pads but never truncates. -/

/-- A string of `n` copies of `c`. -/
def repChar (c : Char) (n : Nat) : String :=
  String.mk (List.replicate n c)

/-- Rust `{:w$}` on a string: left justified, space-padded on the right. -/
def padRight (s : String) (w : Nat) : String :=
  s ++ repChar ' ' (w - s.length)

/-- Rust `{:>w$}` on a string: right justified, space-padded on the left. -/
def padLeft (s : String) (w : Nat) : String :=
  repChar ' ' (w - s.length) ++ s

/-! ### Levenshtein distance and `suggest_animal`

`strsim::levenshtein` computes the classic edit distance by the
Wagner-Fischer row recurrence; `levNextRow` advances one row. -/

/-- One step of the Wagner-Fischer row update: `diag` is the entry above
left, `left` the entry just computed, `p :: ps` the rest of the previous
row aligned with `y :: ys`. -/
def levNextRowAux (x : Char) : List Char → List Nat → Nat → Nat → List Nat
  | [], _, _, _ => []
  | _ :: _, [], _, _ => []
  | y :: ys, p :: ps, diag, left =>
    let cost : Nat := if x = y then 0 else 1
    let cur := min (p + 1) (min (left + 1) (diag + cost))
    cur :: levNextRowAux x ys ps p cur

/-- Advance the Wagner-Fischer row for one character of the first word. -/
def levNextRow (x : Char) (ys : List Char) (prev : List Nat) : List Nat :=
  match prev with
  | [] => []
  | d0 :: rest => (d0 + 1) :: levNextRowAux x ys rest d0 (d0 + 1)

/-- Levenshtein edit distance between two character lists (the distance is
the last entry of the final Wagner-Fischer row). -/
def levenshteinList (xs ys : List Char) : Nat :=
  ((xs.foldl (fun row x => levNextRow x ys row) (List.range (ys.length + 1))).getLast?).getD 0

/-- `strsim::levenshtein` on strings. -/
def levenshtein (a b : String) : Nat :=
  levenshteinList a.data b.data

/-- The array of valid keys inside `suggest_animal` (main.rs lines 358-370). -/
def animalKeys : List String :=
  ["small_dog", "medium_dog", "big_dog", "cat", "horse", "pig", "parakeet",
   "snake", "goldfish", "rabbit", "hamster"]

/-- Rust `Iterator::min_by_key`: the first element attaining the minimum of
`levenshtein input` over the list, `none` on an empty list. -/
def minByLevFirst (input : String) : List String → Option String
  | [] => none
  | k :: ks =>
    some (ks.foldl
      (fun best a => if levenshtein input a < levenshtein input best then a else best) k)

/-- `suggest_animal` (main.rs lines 357-376): the nearest valid key, kept
only when its distance from the input is strictly below 3. -/
def suggest_animal (input : String) : Option String :=
  match minByLevFirst input animalKeys with
  | none => none
  | some best => if levenshtein input best < 3 then some best else none

/-- The minimum Levenshtein distance from `input` to the valid keys. -/
def minLevDist (input : String) : Nat :=
  match animalKeys with
  | [] => 0
  | k :: ks => ks.foldl (fun n a => min n (levenshtein input a)) (levenshtein input k)

/-! ### The progress renderer (`show_lifespan_bars`, main.rs lines 378-415)

The terminal width detected from `Term::stdout().size().1` is passed in as
the parameter `termWidth`. -/

/-- `HUMAN_MAX` (main.rs line 378). -/
def HUMAN_MAX : ℚ := 80

/-- ANSI reset (main.rs line 9). -/
def colorRESET : String := "\x1b[0m"

/-- ANSI cyan (main.rs line 10). -/
def colorCYAN : String := "\x1b[36m"

/-- ANSI yellow (main.rs line 11). -/
def colorYELLOW : String := "\x1b[33m"

/-- ANSI red (main.rs line 12). -/
def colorRED : String := "\x1b[31m"

/-- The bar width: `term_width.saturating_sub(label_width + 8).min(50)`
(main.rs lines 383-385); `Nat` subtraction is saturating. -/
def totalWidthFn (termWidth labelWidth : Nat) : Nat :=
  min (termWidth - (labelWidth + 8)) 50

/-- `(pct * total_width as f32) as usize` (main.rs line 387): Rust's
float-to-usize cast truncates toward zero and clamps negatives to 0,
which on rationals is `Int.toNat ∘ Int.floor`. -/
def filledFn (value maxv : ℚ) (w : Nat) : Nat :=
  (⌊value / maxv * (w : ℚ)⌋).toNat

/-- The color escape chosen for the filled segment (main.rs lines 390-398). -/
def colorFor (pct : ℚ) (noColor : Bool) : String :=
  if noColor then ""
  else if pct ≥ 0.8 then colorRED
  else if pct ≥ 0.6 then colorYELLOW
  else colorCYAN

/-- The `bar` string built at main.rs lines 400-406: color code, `filled`
copies of `'='`, a literal space from the format string `"{}{} {}{}"`,
`empty` spaces, and the reset code. -/
def barString (value maxv : ℚ) (noColor : Bool) (w : Nat) : String :=
  let pct := value / maxv
  let filled := filledFn value maxv w
  let empty := w - filled
  colorFor pct noColor ++ repChar '=' filled ++ " " ++ repChar ' ' empty ++
    (if noColor then "" else colorRESET)

/-- Rust float formatting with precision rounds to nearest, ties to even. -/
def roundHalfEven (q : ℚ) : ℤ :=
  if q - ⌊q⌋ < 1 / 2 then ⌊q⌋
  else if q - ⌊q⌋ > 1 / 2 then ⌊q⌋ + 1
  else if ⌊q⌋ % 2 = 0 then ⌊q⌋ else ⌊q⌋ + 1

/-- The full line printed by `show_lifespan_bars` (main.rs lines 408-414):
`"{:label_width$} |{}| {:>3.0}%"`. -/
def showBarLine (label : String) (value maxv : ℚ) (noColor : Bool)
    (labelWidth termWidth : Nat) : String :=
  let totalWidth := totalWidthFn termWidth labelWidth
  let pct := value / maxv
  padRight label labelWidth ++ " |" ++ barString value maxv noColor totalWidth ++ "| " ++
    padLeft (toString (roundHalfEven (pct * 100))) 3 ++ "%"

/-! ### Process model: events, `run_calc`, `main`

The process's observable behaviour is modelled as a list of stdout events,
a list of stderr events, and an exit code. Each `println!` /
`print_json` / `eprintln!` call site is one event; the pretty JSON body is
abstracted to the serialized record. -/

/-- The `Output` struct serialized by `print_json` (main.rs lines 417-426). -/
structure OutputRec where
  animal : String
  age : ℚ
  human_age : ℚ
  animal_max_lifespan : ℚ
  human_max_lifespan : ℚ
  animal_progress : ℚ
  human_progress : ℚ
deriving DecidableEq, Repr

/-- One stdout print call: a plain text line, a per-species summary line
(main.rs lines 296-301, which formats floats), or one pretty-printed JSON
record (main.rs line 438). -/
inductive OutEvent where
  | line (s : String)
  | summary (age : ℚ) (label : String) (humanAge : ℚ)
  | jsonRec (r : OutputRec)
deriving DecidableEq, Repr

/-- `AppError` (main.rs lines 55-63). -/
inductive AppError where
  | missingArgs
  | unknownAnimal (name : String)
  | invalidAge (msg : String)
deriving DecidableEq, Repr

/-- One stderr print call: the lifespan warning (main.rs lines 271-276) or
the fatal diagnostic printed by `main` (lines 195-209), which carries the
optional suggestion. -/
inductive ErrEvent where
  | warning (age : ℚ) (animal : String) (maxLifespan : ℚ)
  | fatal (e : AppError) (suggestion : Option String)
deriving DecidableEq, Repr

/-- The parsed CLI arguments (main.rs lines 28-53). -/
structure ArgsM where
  animal : Option (List String)
  age : Option ℚ
  list : Bool
  json : Bool
  noColor : Bool

/-- `ResultRow` (main.rs lines 256-261). -/
structure Row where
  displayLabel : String
  chartLabel : String
  humanAge : ℚ
  animalMax : ℚ
deriving DecidableEq, Repr

/-- The record built by `print_json` (main.rs lines 428-439). -/
def printJsonRec (animal : String) (age humanAge animalMax : ℚ) : OutputRec :=
  { animal := animal, age := age, human_age := humanAge,
    animal_max_lifespan := animalMax, human_max_lifespan := HUMAN_MAX,
    animal_progress := age / animalMax, human_progress := humanAge / HUMAN_MAX }

/-- The resolution loop of `run_calc` (main.rs lines 265-290): produces the
stdout events, stderr warnings, the first resolution error (the `?` at line
268 aborts the loop) and the accumulated rows. -/
def calcLoop (age : ℚ) (json : Bool) :
    List String → List OutEvent × List ErrEvent × Option AppError × List Row
  | [] => ([], [], none, [])
  | a :: rest =>
    match Animal.fromStr a.toLower with
    | none => ([], [], some (.unknownAnimal a), [])
    | some t =>
      let amax := t.maxLifespan
      let warns : List ErrEvent :=
        if age > amax * 1.5 then [.warning age a amax] else []
      let humanAge := round1 (t.humanYears age)
      let outs : List OutEvent :=
        if json then [.jsonRec (printJsonRec a age humanAge amax)] else []
      let rows : List Row := if json then [] else [⟨a, t.key, humanAge, amax⟩]
      let (o, e, err, rs) := calcLoop age json rest
      (outs ++ o, warns ++ e, err, rows ++ rs)

/-- The label-column width computation of `run_calc` (main.rs lines
307-317). -/
def chartLabelWidth (rows : List Row) : Nat :=
  let maxLabelLen :=
    match rows with
    | [r] => max "Human".length r.chartLabel.length
    | _ =>
      rows.foldl
        (fun m r => max (max m ("human(" ++ r.chartLabel ++ ")").length) r.chartLabel.length) 0
  max maxLabelLen 10

/-- The two bars printed for one row (main.rs lines 320-346): the
human-equivalent bar (label `"Human"` when a single species was requested,
else `human(<key>)`) capped at `HUMAN_MAX`, then the species bar capped at
its own lifespan. -/
def rowBars (single : Bool) (r : Row) (age : ℚ) (noColor : Bool) (lw tw : Nat) :
    List OutEvent :=
  let humanLabel := if single then "Human" else "human(" ++ r.chartLabel ++ ")"
  [.line (showBarLine humanLabel (min r.humanAge HUMAN_MAX) HUMAN_MAX noColor lw tw),
   .line (showBarLine r.chartLabel (min age r.animalMax) r.animalMax noColor lw tw)]

/-- `run_calc` (main.rs lines 255-355). In JSON mode records are printed
inside the loop; otherwise rows are accumulated and all printing happens
after the whole list resolved: the summary lines, the `"\nLife Progress:\n"`
header, the bar pairs separated by blank lines, and a final blank line. -/
def runCalc (animals : List String) (age : ℚ) (args : ArgsM) (tw : Nat) :
    List OutEvent × List ErrEvent × Option AppError :=
  let (outs, errs, err, rows) := calcLoop age args.json animals
  match err with
  | some e => (outs, errs, some e)
  | none =>
    if args.json then (outs, errs, none)
    else
      let summaries := rows.map fun r => OutEvent.summary age r.displayLabel r.humanAge
      if rows.isEmpty then (outs ++ summaries, errs, none)
      else
        let lw := chartLabelWidth rows
        let single := rows.length == 1
        let bars := List.intercalate [OutEvent.line ""]
          (rows.map fun r => rowBars single r age args.noColor lw tw)
        (outs ++ summaries ++ [OutEvent.line "\nLife Progress:\n"] ++ bars ++
          [OutEvent.line ""], errs, none)

/-- The fixed declaration-order list of variants in `list_animals`
(main.rs lines 237-249). -/
def animalVariants : List Animal :=
  [.smallDog, .mediumDog, .bigDog, .cat, .horse, .pig, .parakeet, .snake,
   .goldfish, .rabbit, .hamster]

/-- One entry line of `list_animals` (main.rs line 251):
`"  {:12} - {}"`. -/
def listLine (a : Animal) : String :=
  "  " ++ padRight a.key 12 ++ " - " ++ a.description

/-- The stdout of `list_animals` (main.rs lines 235-253): the header
`println!("Available animals:\n")` then one line per variant. -/
def listAnimalsOut : List OutEvent :=
  .line "Available animals:\n" :: animalVariants.map (fun a => .line (listLine a))

/-- `main_inner` (main.rs lines 214-233). -/
def mainInner (args : ArgsM) (tw : Nat) :
    List OutEvent × List ErrEvent × Option AppError :=
  if args.list then (listAnimalsOut, [], none)
  else
    match args.animal, args.age with
    | some animals, some age =>
      if age < 0 then ([], [], some (.invalidAge "Age cannot be negative"))
      else runCalc animals age args tw
    | _, _ => ([], [], some .missingArgs)

/-- `main` (main.rs lines 193-212): on an error, print the diagnostic (with
the `suggest_animal` suggestion when the error is `UnknownAnimal`) and exit
with code 1; otherwise exit 0. -/
def mainRun (args : ArgsM) (tw : Nat) : List OutEvent × List ErrEvent × Nat :=
  match mainInner args tw with
  | (o, e, none) => (o, e, 0)
  | (o, e, some err) =>
    let sugg :=
      match err with
      | .unknownAnimal a => suggest_animal a
      | _ => none
    (o, e ++ [.fatal err sugg], 1)

/-! ### Helper lemmas -/

/-- The value of a first-minimum fold is the minimum of the mapped values. -/
theorem foldl_minBy_spec {α : Type} (f : α → Nat) (x : α) (xs : List α) :
    f (xs.foldl (fun b y => if f y < f b then y else b) x)
      = xs.foldl (fun n y => min n (f y)) (f x) := by
  induction xs generalizing x with
  | nil => rfl
  | cons y ys ih =>
    simp only [List.foldl_cons]
    rw [ih]
    have h : f (if f y < f x then y else x) = min (f x) (f y) := by
      split_ifs with h <;> omega
    rw [h]

/-- `Char.ofNat` of a valid scalar value round-trips through `toNat`. -/
theorem toNat_ofNat_valid (n : Nat) (h : n.isValidChar) : (Char.ofNat n).toNat = n := by
  simp [Char.ofNat, dif_pos h, Char.ofNatAux, Char.toNat, UInt32.toNat, BitVec.toNat_ofNatLt]

/-- ASCII lowercasing of a character is idempotent. -/
theorem char_toLower_idem (c : Char) : c.toLower.toLower = c.toLower := by
  unfold Char.toLower
  by_cases h : c.toNat ≥ 65 ∧ c.toNat ≤ 90
  · have hv : (c.toNat + 32).isValidChar := Or.inl (by omega)
    have ht : (Char.ofNat (c.toNat + 32)).toNat = c.toNat + 32 := toNat_ofNat_valid _ hv
    simp only [h, and_self, if_true, ht]
    rw [if_neg]
    omega
  · simp only [h, if_false]

/-- Lowercasing a string is idempotent; hence `Animal::from_str`, which
lowercases its argument, agrees on `s` and `s.toLower`, matching the extra
lowercase `run_calc` performs before calling `from_str`. -/
theorem string_toLower_idem (s : String) : s.toLower.toLower = s.toLower := by
  simp only [String.toLower, String.map_eq, List.map_map]
  congr 1
  apply List.map_congr_left
  intro c _
  exact char_toLower_idem c

/-- `Animal.fromStr` is unchanged by pre-lowercasing its argument. -/
theorem fromStr_toLower (s : String) : Animal.fromStr s.toLower = Animal.fromStr s := by
  unfold Animal.fromStr
  rw [string_toLower_idem]

/-- `String.toLower` as a plain list map, in kernel-reducible form. -/
theorem toLower_eq (s : String) : s.toLower = String.mk (s.data.map Char.toLower) := by
  rw [String.toLower, String.map_eq]

/-- `min_by_key` followed by the distance filter, specified against the
running minimum of the distances: the suggestion exists iff the minimum
distance is below 3, and any suggestion attains the minimum. -/
theorem minBy_filter_spec (s k0 : String) (ks : List String) (B : String) (M : Nat)
    (hB : ks.foldl (fun best a => if levenshtein s a < levenshtein s best then a else best) k0 = B)
    (hM : ks.foldl (fun n a => min n (levenshtein s a)) (levenshtein s k0) = M) :
    ((if levenshtein s B < 3 then some B else none).isSome ↔ M < 3) ∧
    ∀ k, (if levenshtein s B < 3 then some B else none) = some k → levenshtein s k = M := by
  have key : levenshtein s B = M := by
    rw [← hB, ← hM]
    exact foldl_minBy_spec (levenshtein s) k0 ks
  rw [key]
  constructor
  · split_ifs with hlt
    · exact iff_of_true rfl hlt
    · exact iff_of_false (fun hh => nomatch hh) hlt
  · intro k hk
    split_ifs at hk with hlt
    cases hk
    exact key

/-- A suggestion is produced exactly when the minimum Levenshtein distance
from the input to the eleven valid keys is strictly less than 3. -/
theorem suggest_isSome_iff (s : String) :
    (suggest_animal s).isSome ↔ minLevDist s < 3 := by
  have h := minBy_filter_spec s "small_dog"
    ["medium_dog", "big_dog", "cat", "horse", "pig", "parakeet", "snake",
     "goldfish", "rabbit", "hamster"] _ _ rfl rfl
  simpa only [suggest_animal, minByLevFirst, animalKeys, minLevDist] using h.1

/-- Any produced suggestion is a nearest key: its distance from the input
is the minimum distance over the valid keys. -/
theorem suggest_eq_some_min (s k : String) (h : suggest_animal s = some k) :
    levenshtein s k = minLevDist s := by
  have hgen := minBy_filter_spec s "small_dog"
    ["medium_dog", "big_dog", "cat", "horse", "pig", "parakeet", "snake",
     "goldfish", "rabbit", "hamster"] _ _ rfl rfl
  simp only [suggest_animal, minByLevFirst, animalKeys] at h
  simpa only [minLevDist, animalKeys] using hgen.2 k h

/-- Entries after the first failing name are never evaluated: the loop's
result on `pre ++ s :: post` (with `s` unresolvable) is the result on
`pre ++ [s]`. -/
theorem calcLoop_append_fail (age : ℚ) (json : Bool) (pre post : List String) (s : String)
    (hs : Animal.fromStr s = none) :
    calcLoop age json (pre ++ s :: post) = calcLoop age json (pre ++ [s]) := by
  have hs' : Animal.fromStr s.toLower = none := by
    rw [fromStr_toLower]
    exact hs
  induction pre with
  | nil => simp [calcLoop, hs']
  | cons a pre ih =>
    simp only [List.cons_append, calcLoop]
    cases hfa : Animal.fromStr a.toLower with
    | none => rfl
    | some t => simp [ih]

/-- When every name before `s` resolves and `s` does not, the loop ends in
the error `UnknownAnimal s`. -/
theorem calcLoop_fail_err_proj (age : ℚ) (json : Bool) (pre post : List String) (s : String)
    (hpre : ∀ a ∈ pre, (Animal.fromStr a).isSome)
    (hs : Animal.fromStr s = none) :
    (calcLoop age json (pre ++ s :: post)).2.2.1 = some (AppError.unknownAnimal s) := by
  have hs' : Animal.fromStr s.toLower = none := by
    rw [fromStr_toLower]
    exact hs
  induction pre with
  | nil => simp [calcLoop, hs']
  | cons a pre ih =>
    have ha : (Animal.fromStr a).isSome := hpre a (List.mem_cons_self a pre)
    obtain ⟨t, ht⟩ := Option.isSome_iff_exists.mp ha
    have ht' : Animal.fromStr a.toLower = some t := by
      rw [fromStr_toLower]
      exact ht
    have hrec := ih fun x hx => hpre x (List.mem_cons_of_mem _ hx)
    simp only [List.cons_append, calcLoop, ht']
    simpa using hrec

/-- Tuple form of `calcLoop_fail_err_proj`. -/
theorem calcLoop_fail_err (age : ℚ) (json : Bool) (pre post : List String) (s : String)
    (hpre : ∀ a ∈ pre, (Animal.fromStr a).isSome)
    (hs : Animal.fromStr s = none) :
    ∃ o e r, calcLoop age json (pre ++ s :: post)
      = (o, e, some (AppError.unknownAnimal s), r) := by
  have herr := calcLoop_fail_err_proj age json pre post s hpre hs
  have htup : calcLoop age json (pre ++ s :: post)
      = ((calcLoop age json (pre ++ s :: post)).1,
         (calcLoop age json (pre ++ s :: post)).2.1,
         (calcLoop age json (pre ++ s :: post)).2.2.1,
         (calcLoop age json (pre ++ s :: post)).2.2.2) := rfl
  rw [herr] at htup
  exact ⟨_, _, _, htup⟩

/-- In non-JSON mode the loop itself prints nothing to stdout. -/
theorem calcLoop_outs_nonjson (age : ℚ) (l : List String) :
    (calcLoop age false l).1 = [] := by
  induction l with
  | nil => rfl
  | cons a rest ih =>
    simp only [calcLoop]
    cases hfa : Animal.fromStr a.toLower with
    | none => rfl
    | some t => simpa using ih

/-! ### Claims C1-C4: the age conversion -/

/-- C1: for every species and chronological age ≥ 0, the value the program
computes and then displays/serializes (`computedHumanAge`, main.rs line 278)
is the spec's per-species formula rounded half-away-from-zero at the tenths
digit; in particular cat at 1.0 gives 12.5, cat at 3.0 gives 29.0 and horse
at 10.0 gives 46.5. -/
theorem c1_conversion_matches_spec (a : Animal) (age : ℚ) (h : 0 ≤ age) :
    computedHumanAge a age = round1 (spec_human_equivalent a age) ∧
    computedHumanAge Animal.cat 1 = 12.5 ∧
    computedHumanAge Animal.cat 3 = 29 ∧
    computedHumanAge Animal.horse 10 = 46.5 := by
  refine ⟨?_, ?_, ?_, ?_⟩
  · cases a <;>
      simp [computedHumanAge, spec_human_equivalent, twoPhaseSpecies, Animal.humanYears,
        rateYoung, baseAt2, rateAdult, specOffset, specRate]
  · norm_num [computedHumanAge, Animal.humanYears, round1, roundHalfAway]
  · norm_num [computedHumanAge, Animal.humanYears, round1, roundHalfAway]
  · norm_num [computedHumanAge, Animal.humanYears, round1, roundHalfAway]

/-- Witness for C1, instantiated at the cat aged 1. -/
theorem c1_conversion_matches_spec_witness :
    (0 : ℚ) ≤ 1 ∧
    (computedHumanAge Animal.cat 1 = round1 (spec_human_equivalent Animal.cat 1) ∧
      computedHumanAge Animal.cat 1 = 12.5 ∧
      computedHumanAge Animal.cat 3 = 29 ∧
      computedHumanAge Animal.horse 10 = 46.5) :=
  ⟨by norm_num, c1_conversion_matches_spec Animal.cat 1 (by norm_num)⟩

/-- C2 counterexample: the claim "human_equivalent(species, 0) == 0 for every
supported species" fails at the horse, whose single-linear formula has offset
6.5, so age 0 maps to 6.5, not 0. -/
theorem c2_zero_age_counterexample : computedHumanAge Animal.horse 0 ≠ 0 := by
  norm_num [computedHumanAge, Animal.humanYears, round1, roundHalfAway]

/-- C2 amended: every supported species except the horse maps chronological
age 0 to human-equivalent age 0; the horse maps age 0 to 6.5 (its formula's
offset). -/
theorem c2_zero_age_amended :
    (∀ a : Animal, a ≠ Animal.horse → computedHumanAge a 0 = 0) ∧
    computedHumanAge Animal.horse 0 = 6.5 := by
  constructor
  · intro a ha
    cases a <;>
      first
        | exact absurd rfl ha
        | norm_num [computedHumanAge, Animal.humanYears, round1, roundHalfAway]
  · norm_num [computedHumanAge, Animal.humanYears, round1, roundHalfAway]

/-- Witness for the amended C2, instantiated at the cat. -/
theorem c2_zero_age_amended_witness :
    Animal.cat ≠ Animal.horse ∧ computedHumanAge Animal.cat 0 = 0 :=
  ⟨by decide, c2_zero_age_amended.1 Animal.cat (by decide)⟩

/-- C3: for each of the five two-phase species, the conversion at age 2
equals `2 * rate_young`, and the adult branch's base equals `2 * rate_young`
(so the piecewise formula is continuous at the breakpoint). -/
theorem c3_breakpoint_continuity :
    ∀ a ∈ twoPhaseSpecies,
      a.humanYears 2 = 2 * rateYoung a ∧
      baseAt2 a = 2 * rateYoung a ∧
      baseAt2 a + (2 - 2) * rateAdult a = 2 * rateYoung a := by
  intro a ha
  fin_cases ha <;> norm_num [Animal.humanYears, rateYoung, baseAt2, rateAdult]

/-- Witness for C3, instantiated at the cat. -/
theorem c3_breakpoint_continuity_witness :
    Animal.cat ∈ twoPhaseSpecies ∧
    (Animal.cat.humanYears 2 = 2 * rateYoung Animal.cat ∧
      baseAt2 Animal.cat = 2 * rateYoung Animal.cat ∧
      baseAt2 Animal.cat + (2 - 2) * rateAdult Animal.cat = 2 * rateYoung Animal.cat) :=
  ⟨by decide, c3_breakpoint_continuity Animal.cat (by decide)⟩

/-- C4: for every species the conversion is monotonically non-decreasing in
age on ages ≥ 0. -/
theorem c4_monotone (a : Animal) (x y : ℚ) (h0 : 0 ≤ x) (hxy : x ≤ y) :
    a.humanYears x ≤ a.humanYears y := by
  cases a <;> simp only [Animal.humanYears] <;> (try split_ifs) <;> linarith

/-- Witness for C4: the cat between ages 1 and 3. -/
theorem c4_monotone_witness :
    (0 : ℚ) ≤ 1 ∧ (1 : ℚ) ≤ 3 ∧
    Animal.cat.humanYears 1 ≤ Animal.cat.humanYears 3 :=
  ⟨by norm_num, by norm_num, c4_monotone Animal.cat 1 3 (by norm_num) (by norm_num)⟩

/-! ### Claim C5: unknown species and suggestions -/

set_option maxRecDepth 40000

/-- C5: an input with no case-insensitive match in the species table makes
the run fail with `UnknownAnimal` carrying that input (exit code 1, with
the diagnostic carrying `suggest_animal`'s result); a suggestion is
attached iff the minimum Levenshtein distance to the eleven keys is
strictly below 3, and any suggestion is a nearest key; "kat" suggests
"cat" while "xyz123" gets no suggestion. -/
theorem c5_unknown_species_suggestion (s : String) (h : Animal.fromStr s = none) :
    mainRun ⟨some [s], some 1, false, false, false⟩ 80
      = ([], [ErrEvent.fatal (.unknownAnimal s) (suggest_animal s)], 1) ∧
    ((suggest_animal s).isSome ↔ minLevDist s < 3) ∧
    (∀ k, suggest_animal s = some k → levenshtein s k = minLevDist s) ∧
    suggest_animal "kat" = some "cat" ∧
    suggest_animal "xyz123" = none := by
  refine ⟨?_, suggest_isSome_iff s, fun k hk => suggest_eq_some_min s k hk, ?_, ?_⟩
  · have h' : Animal.fromStr (String.toLower s) = none := by
      rw [fromStr_toLower]
      exact h
    norm_num [mainRun, mainInner, runCalc, calcLoop, h']
  · decide
  · decide

/-- Witness for C5 at the input "kat". -/
theorem c5_unknown_species_suggestion_witness :
    Animal.fromStr "kat" = none ∧
    mainRun ⟨some ["kat"], some 1, false, false, false⟩ 80
      = ([], [ErrEvent.fatal (.unknownAnimal "kat") (suggest_animal "kat")], 1) := by
  have hk : Animal.fromStr "kat" = none := by
    simp only [Animal.fromStr, toLower_eq]
    decide
  exact ⟨hk, (c5_unknown_species_suggestion "kat" hk).1⟩

/-- `run_calc` reads only the `json` and `no_color` flags from the parsed
arguments (the species list and age are passed separately). -/
theorem runCalc_only_flags (animals : List String) (age : ℚ) (tw : Nat)
    (a1 a2 : ArgsM) (hj : a1.json = a2.json) (hc : a1.noColor = a2.noColor) :
    runCalc animals age a1 tw = runCalc animals age a2 tw := by
  cases a1 with
  | mk an1 ag1 l1 j1 nc1 =>
    cases a2 with
    | mk an2 ag2 l2 j2 nc2 =>
      dsimp only at hj hc
      subst hj
      subst hc
      rfl

/-! ### Claim C6: fail-fast resolution -/

/-- C6: the first unresolvable name aborts the whole run with exit code 1,
and nothing after it is evaluated: the run on `pre ++ s :: post` is
literally the run on `pre ++ [s]` (same stdout, same stderr, same exit
code), so no conversion, warning or report output exists for any entry
after `s`. -/
theorem c6_fail_fast (pre post : List String) (s : String) (age : ℚ)
    (json noColor : Bool) (tw : Nat)
    (hpre : ∀ a ∈ pre, (Animal.fromStr a).isSome)
    (hs : Animal.fromStr s = none) :
    mainRun ⟨some (pre ++ s :: post), some age, false, json, noColor⟩ tw
      = mainRun ⟨some (pre ++ [s]), some age, false, json, noColor⟩ tw ∧
    (mainRun ⟨some (pre ++ s :: post), some age, false, json, noColor⟩ tw).2.2 = 1 := by
  have hcl := calcLoop_append_fail age json pre post s hs
  constructor
  · have hrc : ∀ args : ArgsM, runCalc (pre ++ s :: post) age args tw
        = runCalc (pre ++ [s]) age args tw := by
      intro args
      unfold runCalc
      rw [show calcLoop age args.json (pre ++ s :: post)
            = calcLoop age args.json (pre ++ [s]) from calcLoop_append_fail age _ pre post s hs]
    have hinner : mainInner ⟨some (pre ++ s :: post), some age, false, json, noColor⟩ tw
        = mainInner ⟨some (pre ++ [s]), some age, false, json, noColor⟩ tw := by
      unfold mainInner
      simp only []
      by_cases hage : age < 0
      · simp [hage]
      · simp only [hage, if_false, hrc]
        exact runCalc_only_flags _ _ _ _ _ rfl rfl
    unfold mainRun
    rw [hinner]
  · by_cases hage : age < 0
    · simp [mainRun, mainInner, hage]
    · obtain ⟨o, e, r, htup⟩ := calcLoop_fail_err age json pre post s hpre hs
      have hrc : runCalc (pre ++ s :: post) age
          ⟨some (pre ++ s :: post), some age, false, json, noColor⟩ tw
          = (o, e, some (AppError.unknownAnimal s)) := by
        unfold runCalc
        rw [htup]
      simp [mainRun, mainInner, hage, hrc]

/-- Witness for C6: valid "cat", then unknown "kat", then "pig" which is
never evaluated. -/
theorem c6_fail_fast_witness :
    (∀ a ∈ (["cat"] : List String), (Animal.fromStr a).isSome) ∧
    Animal.fromStr "kat" = none ∧
    (mainRun ⟨some (["cat"] ++ "kat" :: ["pig"]), some 1, false, false, false⟩ 80
      = mainRun ⟨some (["cat"] ++ ["kat"]), some 1, false, false, false⟩ 80) ∧
    (mainRun ⟨some (["cat"] ++ "kat" :: ["pig"]), some 1, false, false, false⟩ 80).2.2 = 1 := by
  have hcat : Animal.fromStr "cat" = some Animal.cat := by
    simp only [Animal.fromStr, toLower_eq]
    decide
  have hk : Animal.fromStr "kat" = none := by
    simp only [Animal.fromStr, toLower_eq]
    decide
  have hpre : ∀ a ∈ (["cat"] : List String), (Animal.fromStr a).isSome := by
    intro a ha
    simp only [List.mem_singleton] at ha
    subst ha
    rw [hcat]
    rfl
  have h := c6_fail_fast ["cat"] ["pig"] "kat" 1 false false 80 hpre hk
  exact ⟨hpre, hk, h.1, h.2⟩

/-! ### Claim C10: all-or-nothing primary output in human-readable mode -/

/-- C10: in non-JSON mode all rows are accumulated before anything is
printed, so a resolution failure anywhere in the list leaves the primary
output stream completely empty — including for species listed before the
failing one — and the run exits 1. -/
theorem c10_all_or_nothing (pre post : List String) (s : String) (age : ℚ)
    (noColor : Bool) (tw : Nat)
    (hpre : ∀ a ∈ pre, (Animal.fromStr a).isSome)
    (hs : Animal.fromStr s = none) :
    (mainRun ⟨some (pre ++ s :: post), some age, false, false, noColor⟩ tw).1 = [] ∧
    (mainRun ⟨some (pre ++ s :: post), some age, false, false, noColor⟩ tw).2.2 = 1 := by
  by_cases hage : age < 0
  · constructor <;> simp [mainRun, mainInner, hage]
  · obtain ⟨o, e, r, htup⟩ := calcLoop_fail_err age false pre post s hpre hs
    have ho : o = [] := by
      have h1 := calcLoop_outs_nonjson age (pre ++ s :: post)
      rw [htup] at h1
      exact h1
    have hrc : runCalc (pre ++ s :: post) age
        ⟨some (pre ++ s :: post), some age, false, false, noColor⟩ tw
        = (o, e, some (AppError.unknownAnimal s)) := by
      unfold runCalc
      rw [htup]
    constructor <;> simp [mainRun, mainInner, hage, hrc, ho]

/-- Witness for C10: row for the valid leading "cat" is never printed when
"kat" fails later. -/
theorem c10_all_or_nothing_witness :
    (∀ a ∈ (["cat"] : List String), (Animal.fromStr a).isSome) ∧
    Animal.fromStr "kat" = none ∧
    (mainRun ⟨some (["cat"] ++ "kat" :: []), some 1, false, false, false⟩ 80).1 = [] ∧
    (mainRun ⟨some (["cat"] ++ "kat" :: []), some 1, false, false, false⟩ 80).2.2 = 1 := by
  have hcat : Animal.fromStr "cat" = some Animal.cat := by
    simp only [Animal.fromStr, toLower_eq]
    decide
  have hk : Animal.fromStr "kat" = none := by
    simp only [Animal.fromStr, toLower_eq]
    decide
  have hpre : ∀ a ∈ (["cat"] : List String), (Animal.fromStr a).isSome := by
    intro a ha
    simp only [List.mem_singleton] at ha
    subst ha
    rw [hcat]
    rfl
  have h := c10_all_or_nothing ["cat"] [] "kat" 1 false 80 hpre hk
  exact ⟨hpre, hk, h.1, h.2⟩

/-! ### Renderer lemmas and claims C7, C9 -/

/-- `repChar` has the expected length. -/
theorem repChar_length (c : Char) (n : Nat) : (repChar c n).length = n := by
  simp [repChar, String.length]

/-- With `--no-color` the bar is the filled glyphs, the format string's
literal space, then the empty spaces. -/
theorem barString_noColor (v m : ℚ) (w : Nat) :
    barString v m true w
      = repChar '=' (filledFn v m w) ++ " " ++ repChar ' ' (w - filledFn v m w) := by
  unfold barString colorFor
  simp

/-- The filled cell count never exceeds the bar width when the value is
pre-clamped into `[0, max]`. -/
theorem filled_le (v m : ℚ) (w : Nat) (h0 : 0 ≤ v) (h1 : v ≤ m) (h2 : 0 < m) :
    filledFn v m w ≤ w := by
  unfold filledFn
  have hdiv1 : v / m ≤ 1 := by
    rw [div_le_one h2]
    exact h1
  have hw : v / m * (w : ℚ) ≤ (w : ℚ) :=
    mul_le_of_le_one_left (by positivity) hdiv1
  have hfl : ⌊v / m * (w : ℚ)⌋ ≤ (w : ℤ) := by
    have h := Int.floor_le_floor hw
    simpa using h
  exact Int.toNat_le.mpr hfl

/-- The bar content is `w + 1` characters long (filled + the literal
space + empty). -/
theorem barString_noColor_length (v m : ℚ) (w : Nat) (hle : filledFn v m w ≤ w) :
    (barString v m true w).length = w + 1 := by
  rw [barString_noColor]
  have hsp : (" " : String).length = 1 := rfl
  simp [String.length_append, repChar_length, hsp]
  omega

/-- C9: the renderer cannot underflow: under the callers' pre-clamping
(`0 ≤ value ≤ max`, `max > 0`) the filled count is at most the bar width,
for every terminal width and label width, so `empty = width - filled` is an
exact difference and rendering is total. -/
theorem c9_filled_le_width (v m : ℚ) (tw lw : Nat)
    (h0 : 0 ≤ v) (h1 : v ≤ m) (h2 : 0 < m) :
    filledFn v m (totalWidthFn tw lw) ≤ totalWidthFn tw lw ∧
    filledFn v m (totalWidthFn tw lw) +
        (totalWidthFn tw lw - filledFn v m (totalWidthFn tw lw))
      = totalWidthFn tw lw := by
  have h := filled_le v m (totalWidthFn tw lw) h0 h1 h2
  exact ⟨h, by omega⟩

/-- Witness for C9 at value 1, max 2, an 80-column terminal and label
width 10. -/
theorem c9_filled_le_width_witness :
    (0 : ℚ) ≤ 1 ∧ (1 : ℚ) ≤ 2 ∧ (0 : ℚ) < 2 ∧
    filledFn 1 2 (totalWidthFn 80 10) ≤ totalWidthFn 80 10 :=
  ⟨by norm_num, by norm_num, by norm_num,
    (c9_filled_le_width 1 2 80 10 (by norm_num) (by norm_num) (by norm_num)).1⟩

/-- C7 counterexample: at an 80-column terminal with label width 10 the bar
width is 50, but with value 1 and max 2 the content between the `|`
delimiters is 51 characters, not `bar_width` as claimed: the format string
`"{}{} {}{}"` inserts a literal space between the filled and empty
segments. -/
theorem c7_bar_content_counterexample :
    totalWidthFn 80 10 = 50 ∧
    (barString 1 2 true (totalWidthFn 80 10)).length ≠ totalWidthFn 80 10 := by
  have h50 : totalWidthFn 80 10 = 50 := by norm_num [totalWidthFn]
  have hle : filledFn 1 2 50 ≤ 50 :=
    filled_le 1 2 50 (by norm_num) (by norm_num) (by norm_num)
  refine ⟨h50, ?_⟩
  rw [h50, barString_noColor_length 1 2 50 hle]
  omega

/-- C7 amended: the bar width is `min(50, max(0, columns - (label_width +
8)))` and `filled = floor(pct * bar_width)` as claimed, but the content
between the delimiters is the `filled` glyphs, one literal space, then
`bar_width - filled` spaces — `bar_width + 1` characters in total rather
than `bar_width`. -/
theorem c7_bar_content_amended (v m : ℚ) (tw lw : Nat)
    (h0 : 0 ≤ v) (h1 : v ≤ m) (h2 : 0 < m) :
    barString v m true (totalWidthFn tw lw)
      = repChar '=' (filledFn v m (totalWidthFn tw lw)) ++ " " ++
        repChar ' ' (totalWidthFn tw lw - filledFn v m (totalWidthFn tw lw)) ∧
    (barString v m true (totalWidthFn tw lw)).length = totalWidthFn tw lw + 1 ∧
    filledFn v m (totalWidthFn tw lw) = (⌊v / m * (totalWidthFn tw lw : ℚ)⌋).toNat ∧
    totalWidthFn tw lw = min (tw - (lw + 8)) 50 :=
  ⟨barString_noColor v m _,
   barString_noColor_length v m _ (filled_le v m _ h0 h1 h2),
   rfl, rfl⟩

/-- Witness for the amended C7 at value 1, max 2, 80 columns, label
width 10. -/
theorem c7_bar_content_amended_witness :
    (0 : ℚ) ≤ 1 ∧ (1 : ℚ) ≤ 2 ∧ (0 : ℚ) < 2 ∧
    (barString 1 2 true (totalWidthFn 80 10)).length = totalWidthFn 80 10 + 1 :=
  ⟨by norm_num, by norm_num, by norm_num,
    (c7_bar_content_amended 1 2 80 10 (by norm_num) (by norm_num) (by norm_num)).2.1⟩

/-! ### Claim C8: the `--list` mode -/

/-- The claim's per-entry line format, transcribed from the spec's words:
the key left-padded (right-justified) to 12 characters, then `" - "`, then
the description. -/
def specListLine (a : Animal) : String :=
  padLeft a.key 12 ++ " - " ++ a.description

/-- C8 counterexample: the actual `--list` line for the cat is not the
key left-padded to 12 then `" - "` then the description: Rust's `{:12}`
left-justifies (pads on the right), and the line starts with two spaces. -/
theorem c8_list_counterexample : listLine Animal.cat ≠ specListLine Animal.cat := by
  decide

/-- C8 amended: `--list` bypasses computation entirely (its output is the
same for every combination of the other flags and arguments, exit code 0)
and prints, after the header, one line per species in declaration order,
each line being two spaces, the key left-justified (space-padded on the
right) to 12 characters, `" - "`, and the description. -/
theorem c8_list_amended (args : ArgsM) (tw : Nat) (h : args.list = true) :
    mainRun args tw = (listAnimalsOut, [], 0) ∧
    listAnimalsOut =
      [.line "Available animals:\n",
       .line "  small_dog    - Small dog (e.g., terrier)",
       .line "  medium_dog   - Medium dog (e.g., spaniel)",
       .line "  big_dog      - Large dog (e.g., retriever)",
       .line "  cat          - Domestic cat",
       .line "  horse        - Horse",
       .line "  pig          - Pig",
       .line "  parakeet     - Parakeet / budgie",
       .line "  snake        - Common pet snake",
       .line "  goldfish     - Goldfish",
       .line "  rabbit       - Rabbit",
       .line "  hamster      - Hamster"] := by
  constructor
  · simp [mainRun, mainInner, h]
  · decide

/-- Witness for the amended C8 with `--list` set and unrelated flags
populated. -/
theorem c8_list_amended_witness :
    (ArgsM.mk (some ["cat"]) (some 3) true true true).list = true ∧
    mainRun (ArgsM.mk (some ["cat"]) (some 3) true true true) 80
      = (listAnimalsOut, [], 0) :=
  ⟨rfl, (c8_list_amended (ArgsM.mk (some ["cat"]) (some 3) true true true) 80 rfl).1⟩

end AnimalAge
